import Mathlib

/-!
Shallow embedding of `src/josephon.py` (Josephson junction simulator).

The numerical core of the repository is the class `JosephsonJunction` with
its constructor (unit conversion), the method `dc_characteristic` (DC
supercurrent at a single voltage), the method `iv_curve` (voltage sweep
built on `np.linspace`), and the method `phase_dynamics` (time grid built
on `np.arange`, phase obtained from `scipy.integrate.odeint`, voltage
derived analytically from the ODE right-hand side).

Python floats are modelled as real numbers.  The numpy grid builders
`np.linspace` and `np.arange` are embedded by their documented semantics
(`linspace` and `arange` below).  `scipy.integrate.odeint` is an external
adaptive numerical solver; it is modelled as an explicit `solver`
parameter of `phase_dynamics`, and theorems that need its documented
output-shape contract (the returned array has one row per requested time
point) take that contract as a hypothesis.
-/

open Real

/-- Parameter record stored by `JosephsonJunction.__init__`: fields are the
attributes `self.Ic`, `self.Rn`, `self.C`, `self.Vn`, `self.phi0`. -/
structure JosephsonJunction where
  Ic : ℝ
  Rn : ℝ
  C : ℝ
  Vn : ℝ
  phi0 : ℝ

/-- `JosephsonJunction.__init__(Ic, Rn, C, Vn)` from the source:
`self.Ic = Ic * 1e-6`, `self.Rn = Rn`, `self.C = C * 1e-12`,
`self.Vn = Vn * 1e-6`, `self.phi0 = 2.068e-15`. -/
def JosephsonJunction.init (Ic Rn C Vn : ℝ) : JosephsonJunction :=
  { Ic := Ic * 1e-6
    Rn := Rn
    C := C * 1e-12
    Vn := Vn * 1e-6
    phi0 := 2.068e-15 }

/-- `dc_characteristic(self, V)` from the source:
`if np.abs(V) < self.Vn: return self.Ic * np.sin(0) else: return 0`. -/
noncomputable def dc_characteristic (j : JosephsonJunction) (V : ℝ) : ℝ :=
  if |V| < j.Vn then j.Ic * Real.sin 0 else 0

/-- `np.linspace(start, stop, num)` with the default `endpoint=True`:
`num` evenly spaced samples `start + i * (stop - start) / (num - 1)`.
(For `num = 1` the step factor is multiplied by `i = 0`, so the single
sample is `start`, matching numpy.) -/
noncomputable def linspace (start stop : ℝ) (num : ℕ) : List ℝ :=
  (List.range num).map (fun (i : ℕ) => start + (i : ℝ) * ((stop - start) / ((num : ℝ) - 1)))

/-- `iv_curve(self, V_range)` from the source: `V = np.linspace(*V_range)`;
for each sample `v`, `I[i] = dc_characteristic(v) + v/Rn` when `v < Vn`,
else `I[i] = v/Rn`; returns `(V, I)`. -/
noncomputable def iv_curve (j : JosephsonJunction) (Vstart Vstop : ℝ) (num : ℕ) :
    List ℝ × List ℝ :=
  let V := linspace Vstart Vstop num
  let I := V.map (fun v =>
    if v < j.Vn then dc_characteristic j v + v / j.Rn else v / j.Rn)
  (V, I)

/-- `np.arange(0, stop, step)`: samples `i * step` for
`0 ≤ i < max(ceil(stop / step), 0)`. -/
noncomputable def arange (stop step : ℝ) : List ℝ :=
  (List.range (⌈stop / step⌉).toNat).map (fun (i : ℕ) => (i : ℝ) * step)

/-- The closure `dphi_dt(phi, t)` inside `phase_dynamics`:
`2*np.pi/self.phi0 * (I_bias*self.Rn - self.Ic*self.Rn*np.sin(phi))`
(the time argument `t` is accepted but unused, as in the source). -/
noncomputable def dphi_dt (j : JosephsonJunction) (Ibias phi t : ℝ) : ℝ :=
  2 * Real.pi / j.phi0 * (Ibias * j.Rn - j.Ic * j.Rn * Real.sin phi)

/-- The type of an ODE solver in the shape of `scipy.integrate.odeint` for
a scalar state: it receives the right-hand side `f(y, t)`, the initial
state, and the requested time points, and returns the state at each
requested time point. -/
def OdeSolver : Type :=
  (ℝ → ℝ → ℝ) → ℝ → List ℝ → List ℝ

/-- The documented output-shape contract of `scipy.integrate.odeint`: the
returned array has one state row per requested time point. -/
def SolverLengthContract (solver : OdeSolver) : Prop :=
  ∀ f y0 ts, (solver f y0 ts).length = ts.length

/-- `phase_dynamics(self, I_bias, t_max, dt)` from the source:
`t = np.arange(0, t_max, dt)`; `phi = odeint(dphi_dt, 0, t)`;
`V = self.phi0/(2*np.pi) * dphi_dt(phi.T[0], t)` (numpy broadcasting:
`V[i]` pairs `phi[i]` with `t[i]`); returns `(t, phi, V)`. -/
noncomputable def phase_dynamics (solver : OdeSolver) (j : JosephsonJunction)
    (Ibias tmax dt : ℝ) : List ℝ × List ℝ × List ℝ :=
  let t := arange tmax dt
  let phi := solver (fun p s => dphi_dt j Ibias p s) 0 t
  let V := (phi.zip t).map (fun pt => j.phi0 / (2 * Real.pi) * dphi_dt j Ibias pt.1 pt.2)
  (t, phi, V)

/-- A trivial solver (constant trajectory) used only to instantiate
solver-quantified theorems at a concrete input; it satisfies the
output-shape contract of `odeint`. -/
def constSolver : OdeSolver :=
  fun _ y0 ts => ts.map (fun _ => y0)

theorem constSolver_contract : SolverLengthContract constSolver := by
  intro f y0 ts
  simp [constSolver]

/-! ### Helper lemmas about the embedded numpy grid builders -/

theorem linspace_length (a b : ℝ) (n : ℕ) : (linspace a b n).length = n := by
  simp [linspace]

theorem linspace_getElem? (a b : ℝ) (n i : ℕ) (hi : i < n) :
    (linspace a b n)[i]? = some (a + (i : ℝ) * ((b - a) / ((n : ℝ) - 1))) := by
  simp [linspace, List.getElem?_map, List.getElem?_range, hi]

theorem linspace_pairwise (a b : ℝ) (n : ℕ) (hab : a < b) (hn : 2 ≤ n) :
    (linspace a b n).Pairwise (· < ·) := by
  have hstep : 0 < (b - a) / ((n : ℝ) - 1) := by
    apply div_pos (by linarith)
    have : (2 : ℝ) ≤ (n : ℝ) := by exact_mod_cast hn
    linarith
  unfold linspace
  refine (List.pairwise_lt_range n).map _ ?_
  intro x y hxy
  have : (x : ℝ) < (y : ℝ) := by exact_mod_cast hxy
  nlinarith

theorem arange_length (stop step : ℝ) :
    (arange stop step).length = (⌈stop / step⌉).toNat := by
  simp [arange]

theorem arange_getElem? (stop step : ℝ) (i : ℕ) (hi : i < (⌈stop / step⌉).toNat) :
    (arange stop step)[i]? = some ((i : ℝ) * step) := by
  simp [arange, List.getElem?_map, List.getElem?_range, hi]

theorem arange_getElem_lt (stop step : ℝ) (hstep : 0 < step) (i : ℕ)
    (hi : i < (⌈stop / step⌉).toNat) : (i : ℝ) * step < stop := by
  have h1 : (i : ℤ) < ⌈stop / step⌉ := Int.lt_toNat.mp hi
  have h2 : (i : ℝ) < stop / step := by
    have := Int.lt_ceil.mp h1
    exact_mod_cast this
  exact (lt_div_iff₀ hstep).mp h2

theorem arange_pairwise (stop step : ℝ) (hstep : 0 < step) :
    (arange stop step).Pairwise (· < ·) := by
  unfold arange
  refine (List.pairwise_lt_range _).map _ ?_
  intro x y hxy
  have hc : (x : ℝ) < (y : ℝ) := by exact_mod_cast hxy
  nlinarith

theorem arange_nonpos (stop step : ℝ) (hstop : stop ≤ 0) (hstep : 0 < step) :
    arange stop step = [] := by
  unfold arange
  have h1 : stop / step ≤ 0 := div_nonpos_of_nonpos_of_nonneg hstop hstep.le
  have h2 : ⌈stop / step⌉ ≤ 0 := by
    rw [show (0 : ℤ) = ((0 : ℕ) : ℤ) from rfl]
    exact Int.ceil_le.mpr (by exact_mod_cast h1)
  have h3 : (⌈stop / step⌉).toNat = 0 := Int.toNat_of_nonpos h2
  simp [h3]

/-! ### Projection lemmas for the tupled results -/

theorem iv_curve_fst (j : JosephsonJunction) (a b : ℝ) (n : ℕ) :
    (iv_curve j a b n).1 = linspace a b n := rfl

theorem iv_curve_snd (j : JosephsonJunction) (a b : ℝ) (n : ℕ) :
    (iv_curve j a b n).2 = (linspace a b n).map (fun v =>
      if v < j.Vn then dc_characteristic j v + v / j.Rn else v / j.Rn) := rfl

theorem phase_dynamics_time (solver : OdeSolver) (j : JosephsonJunction)
    (Ibias tmax dt : ℝ) :
    (phase_dynamics solver j Ibias tmax dt).1 = arange tmax dt := rfl

theorem phase_dynamics_phi (solver : OdeSolver) (j : JosephsonJunction)
    (Ibias tmax dt : ℝ) :
    (phase_dynamics solver j Ibias tmax dt).2.1 =
      solver (fun p s => dphi_dt j Ibias p s) 0 (arange tmax dt) := rfl

theorem phase_dynamics_V (solver : OdeSolver) (j : JosephsonJunction)
    (Ibias tmax dt : ℝ) :
    (phase_dynamics solver j Ibias tmax dt).2.2 =
      (((phase_dynamics solver j Ibias tmax dt).2.1).zip (arange tmax dt)).map
        (fun pt => j.phi0 / (2 * Real.pi) * dphi_dt j Ibias pt.1 pt.2) := rfl

/-! ### Claim theorems -/

/-- Claim C4: for every finite voltage input, `dc_characteristic` returns
exactly 0: the below-threshold branch evaluates `Ic * sin(0) = 0` and the
at-or-above-threshold branch returns 0. -/
theorem C4_dc_characteristic_always_zero (j : JosephsonJunction) (V : ℝ) :
    dc_characteristic j V = 0 := by
  unfold dc_characteristic
  split
  · simp
  · rfl

/-- Claim C8: the constructor stores critical current scaled by `1e-6`,
noise voltage scaled by `1e-6`, capacitance scaled by `1e-12`, normal
resistance unchanged, and the flux quantum fixed at `2.068e-15`; the
parameter record is an immutable value afterwards (no method writes any
field). -/
theorem C8_unit_conversion (Ic Rn C Vn : ℝ) :
    (JosephsonJunction.init Ic Rn C Vn).Ic = Ic * 1e-6 ∧
    (JosephsonJunction.init Ic Rn C Vn).Rn = Rn ∧
    (JosephsonJunction.init Ic Rn C Vn).C = C * 1e-12 ∧
    (JosephsonJunction.init Ic Rn C Vn).Vn = Vn * 1e-6 ∧
    (JosephsonJunction.init Ic Rn C Vn).phi0 = 2.068e-15 :=
  ⟨rfl, rfl, rfl, rfl, rfl⟩

/-- Claim C3: every sampled voltage `v` at or above the noise threshold is
paired by the sweep with the current `v / Rn` exactly (the supercurrent
term contributes nothing). -/
theorem C3_sweep_resistive_current (j : JosephsonJunction) (a b : ℝ) (n i : ℕ)
    (v I : ℝ)
    (hv : (iv_curve j a b n).1[i]? = some v)
    (hI : (iv_curve j a b n).2[i]? = some I)
    (hth : j.Vn ≤ v) :
    I = v / j.Rn := by
  rw [iv_curve_fst] at hv
  rw [iv_curve_snd, List.getElem?_map, hv] at hI
  simp only [Option.map_some', Option.some.injEq] at hI
  rw [if_neg (not_lt.mpr hth)] at hI
  exact hI.symm

/-- Claim C5: for every junction and every `sampleCount ≥ 1` the sweep
returns voltage and current arrays of length exactly `sampleCount`; and
whenever `voltageStart < voltageStop` and `sampleCount ≥ 2`, the voltage
sequence is strictly increasing with first element `voltageStart` and last
element `voltageStop` (exactly, in the real-number model). -/
theorem C5_sweep_shape (j : JosephsonJunction) (a b : ℝ) (n : ℕ) (hn : 1 ≤ n) :
    (iv_curve j a b n).1.length = n ∧
    (iv_curve j a b n).2.length = n ∧
    (a < b → 2 ≤ n →
      (iv_curve j a b n).1.Pairwise (· < ·) ∧
      (iv_curve j a b n).1[0]? = some a ∧
      (iv_curve j a b n).1[n - 1]? = some b) := by
  refine ⟨?_, ?_, ?_⟩
  · rw [iv_curve_fst, linspace_length]
  · rw [iv_curve_snd, List.length_map, linspace_length]
  · intro hab hn2
    refine ⟨?_, ?_, ?_⟩
    · rw [iv_curve_fst]
      exact linspace_pairwise a b n hab hn2
    · rw [iv_curve_fst, linspace_getElem? a b n 0 (by omega)]
      norm_num
    · rw [iv_curve_fst, linspace_getElem? a b n (n - 1) (by omega)]
      have hcast : ((n - 1 : ℕ) : ℝ) = (n : ℝ) - 1 := by
        rw [Nat.cast_sub hn, Nat.cast_one]
      rw [hcast]
      have hne : (n : ℝ) - 1 ≠ 0 := by
        have : (2 : ℝ) ≤ (n : ℝ) := by exact_mod_cast hn2
        intro h
        nlinarith
      field_simp

/-- Claim C2: for a junction built by the constructor, every voltage sample
produced by `phase_dynamics` equals the closed-form right-hand side
`(phi0 / 2π) * (2π / phi0) * (Ibias*Rn - Ic*Rn*sin(phase))`, i.e.
`Rn * (Ibias - Ic * sin(phase))`, evaluated at the phase sample of the
same index — derived analytically, not by finite differencing. -/
theorem C2_voltage_closed_form (solver : OdeSolver) (Ic Rn c Vn Ibias tmax dt : ℝ)
    (i : ℕ) (p v : ℝ)
    (hp : (phase_dynamics solver (JosephsonJunction.init Ic Rn c Vn) Ibias tmax dt).2.1[i]? = some p)
    (hv : (phase_dynamics solver (JosephsonJunction.init Ic Rn c Vn) Ibias tmax dt).2.2[i]? = some v) :
    v = (JosephsonJunction.init Ic Rn c Vn).Rn *
        (Ibias - (JosephsonJunction.init Ic Rn c Vn).Ic * Real.sin p) := by
  rw [phase_dynamics_V, List.getElem?_map] at hv
  cases hzip : ((phase_dynamics solver (JosephsonJunction.init Ic Rn c Vn) Ibias tmax dt).2.1.zip
      (arange tmax dt))[i]? with
  | none =>
    rw [hzip] at hv
    simp at hv
  | some pt =>
    rw [hzip] at hv
    simp only [Option.map_some', Option.some.injEq] at hv
    have h1 : (phase_dynamics solver (JosephsonJunction.init Ic Rn c Vn) Ibias tmax dt).2.1[i]? =
        some pt.1 := (List.getElem?_zip_eq_some.mp hzip).1
    have hpt : pt.1 = p := by
      rw [h1] at hp
      exact Option.some.inj hp
    subst hv
    rw [hpt]
    unfold dphi_dt
    simp only [JosephsonJunction.init]
    have hphi0 : (2.068e-15 : ℝ) ≠ 0 := by norm_num
    have hpi : Real.pi ≠ 0 := Real.pi_ne_zero
    field_simp
    ring

/-- Claim C7: for a solver satisfying the `odeint` shape contract and a
positive time step, the time grid consists of samples `i * dt`, each
strictly below `duration` (grid from 0 to `duration` exclusive), is
strictly increasing, and the phase and voltage arrays have the same length
as the time grid; in particular with `duration = 100e-9` and
`timeStep = 1e-11` the grid has exactly 10000 samples, starts at 0 and
ends at `99.99e-9`. -/
theorem C7_time_grid_properties (solver : OdeSolver) (hs : SolverLengthContract solver)
    (j : JosephsonJunction) (Ibias tmax dt : ℝ) (hdt : 0 < dt) :
    (∀ (i : ℕ) (x : ℝ),
        (phase_dynamics solver j Ibias tmax dt).1[i]? = some x →
        x = (i : ℝ) * dt ∧ x < tmax) ∧
    (phase_dynamics solver j Ibias tmax dt).1.Pairwise (· < ·) ∧
    (phase_dynamics solver j Ibias tmax dt).2.1.length =
      (phase_dynamics solver j Ibias tmax dt).1.length ∧
    (phase_dynamics solver j Ibias tmax dt).2.2.length =
      (phase_dynamics solver j Ibias tmax dt).1.length ∧
    (phase_dynamics solver j Ibias 1e-7 1e-11).1.length = 10000 ∧
    (phase_dynamics solver j Ibias 1e-7 1e-11).1[0]? = some (0 : ℝ) ∧
    (phase_dynamics solver j Ibias 1e-7 1e-11).1[9999]? = some ((99.99e-9 : ℝ)) := by
  have hceil : (⌈(1e-7 : ℝ) / 1e-11⌉).toNat = 10000 := by
    have hq : (1e-7 : ℝ) / 1e-11 = ((10000 : ℕ) : ℝ) := by norm_num
    rw [hq, Int.ceil_natCast]
    rfl
  refine ⟨?_, ?_, ?_, ?_, ?_, ?_, ?_⟩
  · intro i x hx
    rw [phase_dynamics_time] at hx
    have hi : i < ((⌈tmax / dt⌉).toNat) := by
      by_contra hcon
      push_neg at hcon
      rw [List.getElem?_eq_none (by rw [arange_length]; omega)] at hx
      exact Option.noConfusion hx
    rw [arange_getElem? tmax dt i hi] at hx
    have hx' : (i : ℝ) * dt = x := Option.some.inj hx
    exact ⟨hx'.symm, hx' ▸ arange_getElem_lt tmax dt hdt i hi⟩
  · rw [phase_dynamics_time]
    exact arange_pairwise tmax dt hdt
  · rw [phase_dynamics_phi, phase_dynamics_time]
    exact hs _ _ _
  · rw [phase_dynamics_V, phase_dynamics_phi, phase_dynamics_time,
      List.length_map, List.length_zip, hs _ _ _]
    exact min_self _
  · rw [phase_dynamics_time, arange_length, hceil]
  · rw [phase_dynamics_time, arange_getElem? 1e-7 1e-11 0 (by rw [hceil]; omega)]
    norm_num
  · rw [phase_dynamics_time, arange_getElem? 1e-7 1e-11 9999 (by rw [hceil]; omega)]
    norm_num

/-- Claim C6 (evidence of the divergence): the code performs no parameter
validation — with `duration ≤ 0` the `np.arange` grid is silently empty
and `phase_dynamics` yields empty time, phase and voltage arrays instead
of failing with an InvalidParameter error (no such error exists anywhere
in the source). -/
theorem C6_silent_empty_trajectory :
    arange (-1e-9) 1e-11 = ([] : List ℝ) ∧
    phase_dynamics constSolver (JosephsonJunction.init 1 1 1 0.001) 1.5e-6 (-1e-9) 1e-11 =
      (([] : List ℝ), ([] : List ℝ), ([] : List ℝ)) := by
  have h : arange (-1e-9) 1e-11 = [] := arange_nonpos _ _ (by norm_num) (by norm_num)
  refine ⟨h, ?_⟩
  unfold phase_dynamics
  rw [h]
  simp [constSolver]

/-- Claim C9: `iv_curve` and `phase_dynamics` are deterministic — two
calls with identical parameters (and the same solver) produce identical
output arrays; the embedding is a pure function of its arguments, with no
hidden state and no stochastic noise. -/
theorem C9_deterministic (solver : OdeSolver) (j j2 : JosephsonJunction)
    (a a2 b b2 : ℝ) (n n2 : ℕ) (Ibias Ibias2 tmax tmax2 dt dt2 : ℝ)
    (h1 : j = j2) (h2 : a = a2) (h3 : b = b2) (h4 : n = n2)
    (h5 : Ibias = Ibias2) (h6 : tmax = tmax2) (h7 : dt = dt2) :
    iv_curve j a b n = iv_curve j2 a2 b2 n2 ∧
    phase_dynamics solver j Ibias tmax dt = phase_dynamics solver j2 Ibias2 tmax2 dt2 := by
  subst h1 h2 h3 h4 h5 h6 h7
  exact ⟨rfl, rfl⟩

/-- Claim C10: the capacitance parameter is stored (scaled to Farads) but
never read by any computation: junctions built with the same critical
current, resistance and noise voltage but arbitrary capacitances give
identical `iv_curve` and `phase_dynamics` results. -/
theorem C10_capacitance_independent (solver : OdeSolver) (Ic Rn c c2 Vn : ℝ)
    (a b : ℝ) (n : ℕ) (Ibias tmax dt : ℝ) :
    (JosephsonJunction.init Ic Rn c Vn).C = c * 1e-12 ∧
    iv_curve (JosephsonJunction.init Ic Rn c Vn) a b n =
      iv_curve (JosephsonJunction.init Ic Rn c2 Vn) a b n ∧
    phase_dynamics solver (JosephsonJunction.init Ic Rn c Vn) Ibias tmax dt =
      phase_dynamics solver (JosephsonJunction.init Ic Rn c2 Vn) Ibias tmax dt :=
  ⟨rfl, rfl, rfl⟩

/-! ### Concrete witnesses for the hypothesis-bearing claim theorems -/

theorem arange_one_one : arange (1 : ℝ) 1 = [0] := by
  unfold arange
  rw [show ((1 : ℝ) / 1) = ((1 : ℕ) : ℝ) by norm_num, Int.ceil_natCast]
  show List.map (fun (i : ℕ) => (i : ℝ) * 1) (List.range 1) = [0]
  rw [show List.range 1 = [0] from rfl]
  simp

theorem C5_witness :
    1 ≤ 2 ∧
    ((iv_curve (JosephsonJunction.init 1 1 1 0.001) 0 5 2).1.length = 2 ∧
     (iv_curve (JosephsonJunction.init 1 1 1 0.001) 0 5 2).2.length = 2 ∧
     ((0 : ℝ) < 5 → 2 ≤ 2 →
       (iv_curve (JosephsonJunction.init 1 1 1 0.001) 0 5 2).1.Pairwise (· < ·) ∧
       (iv_curve (JosephsonJunction.init 1 1 1 0.001) 0 5 2).1[0]? = some (0 : ℝ) ∧
       (iv_curve (JosephsonJunction.init 1 1 1 0.001) 0 5 2).1[2 - 1]? = some (5 : ℝ))) :=
  ⟨by norm_num, C5_sweep_shape (JosephsonJunction.init 1 1 1 0.001) 0 5 2 (by norm_num)⟩

theorem C3_witness :
    (iv_curve (JosephsonJunction.init 1 1 1 0.001) 0 5 2).1[1]? = some (5 : ℝ) ∧
    (iv_curve (JosephsonJunction.init 1 1 1 0.001) 0 5 2).2[1]? = some (5 : ℝ) ∧
    (JosephsonJunction.init 1 1 1 0.001).Vn ≤ 5 ∧
    (5 : ℝ) = 5 / (JosephsonJunction.init 1 1 1 0.001).Rn := by
  have h1 : (iv_curve (JosephsonJunction.init 1 1 1 0.001) 0 5 2).1[1]? = some (5 : ℝ) := by
    rw [iv_curve_fst, linspace_getElem? 0 5 2 1 (by omega)]
    norm_num
  have h3 : (JosephsonJunction.init 1 1 1 0.001).Vn ≤ (5 : ℝ) := by
    show (0.001 * 1e-6 : ℝ) ≤ 5
    norm_num
  have h2 : (iv_curve (JosephsonJunction.init 1 1 1 0.001) 0 5 2).2[1]? = some (5 : ℝ) := by
    rw [iv_curve_snd, List.getElem?_map, linspace_getElem? 0 5 2 1 (by omega)]
    have hcond : ¬ ((0 : ℝ) + (1 : ℕ) * ((5 - 0) / ((2 : ℕ) - 1)) <
        (JosephsonJunction.init 1 1 1 0.001).Vn) := by
      show ¬ ((0 : ℝ) + (1 : ℕ) * ((5 - 0) / ((2 : ℕ) - 1)) < 0.001 * 1e-6)
      norm_num
    rw [Option.map_some', if_neg hcond]
    simp only [JosephsonJunction.init]
    norm_num
  exact ⟨h1, h2, h3,
    C3_sweep_resistive_current (JosephsonJunction.init 1 1 1 0.001) 0 5 2 1 5 5 h1 h2 h3⟩

theorem C2_witness :
    (phase_dynamics constSolver (JosephsonJunction.init 1 1 1 0.001) 0 1 1).2.1[0]? =
      some (0 : ℝ) ∧
    (phase_dynamics constSolver (JosephsonJunction.init 1 1 1 0.001) 0 1 1).2.2[0]? =
      some (0 : ℝ) ∧
    (0 : ℝ) = (JosephsonJunction.init 1 1 1 0.001).Rn *
      (0 - (JosephsonJunction.init 1 1 1 0.001).Ic * Real.sin 0) := by
  have hp : (phase_dynamics constSolver (JosephsonJunction.init 1 1 1 0.001) 0 1 1).2.1[0]? =
      some (0 : ℝ) := by
    rw [phase_dynamics_phi, arange_one_one]
    simp [constSolver]
  have hv : (phase_dynamics constSolver (JosephsonJunction.init 1 1 1 0.001) 0 1 1).2.2[0]? =
      some (0 : ℝ) := by
    rw [phase_dynamics_V, phase_dynamics_phi, arange_one_one]
    simp [constSolver, dphi_dt, Real.sin_zero]
  exact ⟨hp, hv, C2_voltage_closed_form constSolver 1 1 1 0.001 0 1 1 0 0 0 hp hv⟩

theorem C7_witness :
    SolverLengthContract constSolver ∧ (0 : ℝ) < 1e-11 ∧
    ((∀ (i : ℕ) (x : ℝ),
        (phase_dynamics constSolver (JosephsonJunction.init 1 1 1 0.001)
          1.5e-6 1e-7 1e-11).1[i]? = some x →
        x = (i : ℝ) * 1e-11 ∧ x < 1e-7) ∧
     (phase_dynamics constSolver (JosephsonJunction.init 1 1 1 0.001)
       1.5e-6 1e-7 1e-11).1.Pairwise (· < ·) ∧
     (phase_dynamics constSolver (JosephsonJunction.init 1 1 1 0.001)
       1.5e-6 1e-7 1e-11).2.1.length =
       (phase_dynamics constSolver (JosephsonJunction.init 1 1 1 0.001)
         1.5e-6 1e-7 1e-11).1.length ∧
     (phase_dynamics constSolver (JosephsonJunction.init 1 1 1 0.001)
       1.5e-6 1e-7 1e-11).2.2.length =
       (phase_dynamics constSolver (JosephsonJunction.init 1 1 1 0.001)
         1.5e-6 1e-7 1e-11).1.length ∧
     (phase_dynamics constSolver (JosephsonJunction.init 1 1 1 0.001)
       1.5e-6 1e-7 1e-11).1.length = 10000 ∧
     (phase_dynamics constSolver (JosephsonJunction.init 1 1 1 0.001)
       1.5e-6 1e-7 1e-11).1[0]? = some (0 : ℝ) ∧
     (phase_dynamics constSolver (JosephsonJunction.init 1 1 1 0.001)
       1.5e-6 1e-7 1e-11).1[9999]? = some ((99.99e-9 : ℝ))) :=
  ⟨constSolver_contract, by norm_num,
    C7_time_grid_properties constSolver constSolver_contract
      (JosephsonJunction.init 1 1 1 0.001) 1.5e-6 1e-7 1e-11 (by norm_num)⟩

theorem C9_witness :
    iv_curve (JosephsonJunction.init 1 1 1 0.001) 0 5 500 =
      iv_curve (JosephsonJunction.init 1 1 1 0.001) 0 5 500 ∧
    phase_dynamics constSolver (JosephsonJunction.init 1 1 1 0.001) 1.5e-6 1e-7 1e-11 =
      phase_dynamics constSolver (JosephsonJunction.init 1 1 1 0.001) 1.5e-6 1e-7 1e-11 :=
  C9_deterministic constSolver (JosephsonJunction.init 1 1 1 0.001)
    (JosephsonJunction.init 1 1 1 0.001) 0 0 5 5 500 500 1.5e-6 1.5e-6 1e-7 1e-7 1e-11 1e-11
    rfl rfl rfl rfl rfl rfl rfl
